import Mathlib

/-!
A shallow embedding of the battleship engine in `src/game.rs` (and the
`on_fire` entry point of `src/app.rs`) of deepu105/battleship-rs.

Modelling conventions:
* Rust `Vec<Vec<Position>>` becomes `List (List Position)`; indexing
  `positions[r][c]` becomes `getD`-based access (the claims under study only
  exercise in-bounds coordinates; `List.set` is a no-op out of bounds, as the
  corresponding Rust would panic there).
* `BTreeSet<Coordinate>` volleys become lists of coordinates (a `BTreeSet`
  iterates its distinct keys in ascending order; theorems that need
  distinctness state it as a hypothesis).
* `BTreeMap<Coordinate, Status>` responses become association lists built in
  iteration order.
* `Uuid` ship ids become `Nat` (uuids are opaque fresh strings; freshness is
  modelled by distinct numbers).
* `rand::thread_rng` draws become explicit draw streams passed as arguments.
-/

set_option linter.unusedVariables false

namespace Battleship

def ROWS : Nat := 10
def COLUMNS : Nat := 10
def SHIP_SIZE : Nat := 3

abbrev Coordinate := Nat × Nat

/-- `Status` from `game.rs` (`LIVE | MISS | HIT | KILL | SPACE`). -/
inductive Status where
  | LIVE
  | MISS
  | HIT
  | KILL
  | SPACE
deriving DecidableEq, Repr

/-- `Status::as_char` from `game.rs`. -/
def Status.as_char : Status → Char
  | .LIVE => '*'
  | .MISS => '-'
  | .HIT => 'X'
  | .KILL => 'K'
  | .SPACE => '.'

/-- `Rule` from `game.rs`. -/
inductive Rule where
  | Default
  | SuperCharge
  | Desperation
deriving DecidableEq, Repr

/-- `Difficulty` from `game.rs`. -/
inductive Difficulty where
  | Easy
  | Hard
deriving DecidableEq, Repr

/-- `ShipType` from `game.rs`. -/
inductive ShipType where
  | X
  | V
  | H
  | I
deriving DecidableEq, Repr

/-- `Position` from `game.rs`: per-cell status, coordinate, optional owning
ship id. -/
structure Position where
  status : Status
  coordinate : Coordinate
  ship_id : Option Nat
deriving DecidableEq, Repr

/-- `Position::new`: fresh cells start as `SPACE` with no ship. -/
def Position.new (c : Coordinate) : Position :=
  { status := Status.SPACE, coordinate := c, ship_id := none }

def defaultPosition : Position := Position.new (0, 0)

/-- `Ship` from `game.rs` (uuid id modelled as `Nat`). -/
structure Ship where
  id : Nat
  rotation : Nat
  alive : Bool
  ship_type : ShipType
deriving DecidableEq, Repr

/-- `Board` from `game.rs`; the unused `firing_status` map is omitted. -/
structure Board where
  positions : List (List Position)
  ships : List Ship
deriving DecidableEq, Repr

/-- Read `positions[c.0][c.1]` (out of bounds yields the default cell; the
Rust code would panic there and the claims only use in-bounds coordinates). -/
def getPos (ps : List (List Position)) (c : Coordinate) : Position :=
  (ps.getD c.1 []).getD c.2 defaultPosition

def Board.getPosition (b : Board) (c : Coordinate) : Position :=
  getPos b.positions c

/-- Overwrite the cell at `c` (a no-op out of bounds, where the Rust
indexing would panic). -/
def writePos (ps : List (List Position)) (c : Coordinate) (q : Position) :
    List (List Position) :=
  ps.set c.1 ((ps.getD c.1 []).set c.2 q)

/-- `self.positions[shot.0][shot.1].status = status` as a functional update
(coordinate and ship id of the cell are untouched). -/
def setPosStatus (ps : List (List Position)) (c : Coordinate) (st : Status) :
    List (List Position) :=
  writePos ps c (Position.mk st (getPos ps c).coordinate (getPos ps c).ship_id)

/-- A placement write: mark the cell `LIVE` and owned by ship `id`
(`Ship::draw`'s per-cell effect). -/
def setPosLive (ps : List (List Position)) (c : Coordinate) (id : Nat) :
    List (List Position) :=
  writePos ps c (Position.mk Status.LIVE (getPos ps c).coordinate (some id))

/-- `Board::ships_alive`. -/
def shipsAlive (b : Board) : List Ship :=
  b.ships.filter (fun s => s.alive)

/-- `Board::find_ship_mut` (lookup half: the first ship with this id). -/
def findShip (b : Board) (id : Nat) : Option Ship :=
  b.ships.find? (fun s => s.id == id)

/-- The mutation half of `find_ship_mut` + `ship.alive = false`: set the
first ship carrying `id` to dead. -/
def setShipDead : List Ship → Nat → List Ship
  | [], _ => []
  | s :: rest, id =>
      if s.id == id then { s with alive := false } :: rest
      else s :: setShipDead rest id

/-- `Board::alive_pos_by_ship`: all cells owned by `id` that are still
`LIVE`, in row-major order. -/
def alivePosByShip (b : Board) (id : Nat) : List Position :=
  (b.positions.flatten.filter (fun p => p.ship_id == some id)).filter
    (fun p => p.status == Status.LIVE)

/-- The per-shot resolution inside `Board::take_fire`'s loop, before the
commit: the provisional status together with the ship-roster mutation (a
kill sets the owning ship's alive flag to false; the grid is not touched
here). -/
def resolveShot (b : Board) (shot : Coordinate) : Status × List Ship :=
  let pos := b.getPosition shot
  if pos.status = Status.LIVE then
    match pos.ship_id with
    | some id =>
        if (alivePosByShip b id).length ≤ 1 then
          match findShip b id with
          | some _ => (Status.KILL, setShipDead b.ships id)
          | none => (Status.HIT, b.ships)
        else (Status.HIT, b.ships)
    | none => (Status.HIT, b.ships)
  else (Status.MISS, b.ships)

/-- One full iteration of `Board::take_fire`'s loop: resolve, then commit the
provisional status only if the stored status is neither `HIT` nor `KILL`. -/
def fireOne (b : Board) (shot : Coordinate) : Status × Board :=
  let pos := b.getPosition shot
  let r := resolveShot b shot
  let ps :=
    if pos.status ≠ Status.HIT ∧ pos.status ≠ Status.KILL then
      setPosStatus b.positions shot r.1
    else b.positions
  (r.1, { positions := ps, ships := r.2 })

/-- The loop of `Board::take_fire` over the volley (ascending `BTreeSet`
order), returning the response association list and the mutated board. -/
def takeFireGo (b : Board) : List Coordinate → List (Coordinate × Status) × Board
  | [] => ([], b)
  | shot :: rest =>
      let r := fireOne b shot
      let rec' := takeFireGo r.2 rest
      ((shot, r.1) :: rec'.1, rec'.2)

/-- `Board::take_fire`: response map, mutated board, and the cleared flag
(`self.ships_alive().is_empty()` evaluated after the loop). -/
def takeFire (b : Board) (shots : List Coordinate) :
    (List (Coordinate × Status) × Board) × Bool :=
  let r := takeFireGo b shots
  (r, (shipsAlive r.2).isEmpty)

/-- The message built at the end of `Board::update_status` (`msg.join("")`). -/
def composeMessage (bot : Bool) (kill_count hit_count miss_count : Nat) : String :=
  (if bot then "Computer have " else "You have ")
    ++ (if kill_count > 0 then "sunk " ++ toString kill_count ++ " ship."
        else toString hit_count ++ " hit.")
    ++ (if miss_count > 0 then
          " " ++ (if bot then "Computer" else "You") ++ " missed "
            ++ toString miss_count ++ "."
        else "")

/-- The loop of `Board::update_status`: commit each response status under the
same not-already-`HIT`/`KILL` guard, tallying kill/hit/miss counts. -/
def updateStatusGo (b : Board) (kc hc mc : Nat) :
    List (Coordinate × Status) → Board × Nat × Nat × Nat
  | [] => (b, kc, hc, mc)
  | (shot, status) :: rest =>
      let pos := b.getPosition shot
      let b' :=
        if pos.status ≠ Status.HIT ∧ pos.status ≠ Status.KILL then
          { b with positions := setPosStatus b.positions shot status }
        else b
      match status with
      | Status.MISS => updateStatusGo b' kc hc (mc + 1) rest
      | Status.HIT => updateStatusGo b' kc (hc + 1) mc rest
      | Status.KILL => updateStatusGo b' (kc + 1) hc mc rest
      | _ => updateStatusGo b' kc hc mc rest

/-- `Board::update_status`: commit the response to the tracking board and
compose the result message. -/
def updateStatus (b : Board) (response : List (Coordinate × Status)) (bot : Bool) :
    String × Board :=
  let r := updateStatusGo b 0 0 0 response
  (composeMessage bot r.2.1 r.2.2.1 r.2.2.2, r.1)

/-! ### Ship shapes, rotation, placement (`ShipType`, `Ship`, `Board::new`) -/

/-- The canonical 3×3 masks of `ShipType::get_shape` (built in the source
from `Status::LIVE.as_char() = '*'` and `Status::SPACE.as_char() = '.'`). -/
def shipShapeBase : ShipType → List (List Char)
  | .X => [['*', '.', '*'], ['.', '*', '.'], ['*', '.', '*']]
  | .V => [['*', '.', '*'], ['*', '.', '*'], ['.', '*', '.']]
  | .H => [['*', '.', '*'], ['*', '*', '*'], ['*', '.', '*']]
  | .I => [['.', '*', '.'], ['.', '*', '.'], ['.', '*', '.']]

/-- `transpose` from `game.rs` (`out[y][x] = inp[x][y]`), on the 3×3 shapes
it is applied to. -/
def transposeShape : List (List Char) → List (List Char)
  | [[a, b, c], [d, e, f], [g, h, i]] => [[a, d, g], [b, e, h], [c, f, i]]
  | l => l

/-- `reverse_cols_of_rows` from `game.rs` (`out[x][len-y-1] = inp[x][y]`):
each row reversed. -/
def reverseColsOfRows : List (List Char) → List (List Char)
  | [[a, b, c], [d, e, f], [g, h, i]] => [[c, b, a], [f, e, d], [i, h, g]]
  | l => l

/-- `reverse_rows_of_cols` from `game.rs` (`out[len-x-1][y] = inp[x][y]`):
the rows in reverse order. -/
def reverseRowsOfCols : List (List Char) → List (List Char)
  | [r1, r2, r3] => [r3, r2, r1]
  | l => l

/-- `ShipType::get_shape`: rotation 180/270/360 transform the base mask,
every other value (in particular 90) returns it unchanged. -/
def getShape (t : ShipType) (rotation : Nat) : List (List Char) :=
  let shape := shipShapeBase t
  if rotation = 180 then reverseColsOfRows (transposeShape shape)
  else if rotation = 270 then reverseRowsOfCols (reverseColsOfRows shape)
  else if rotation = 360 then reverseRowsOfCols (transposeShape shape)
  else shape

def ROTATIONS : List Nat := [90, 180, 270, 360]

/-- `Ship::shape`. -/
def Ship.shape (s : Ship) : List (List Char) :=
  getShape s.ship_type s.rotation

/-- The nine cells of the 3×3 bounding box, in the iteration order of the
nested loops in `Ship::is_overlapping` / `Ship::draw`. -/
def boxOffsets : List (Nat × Nat) :=
  [(0, 0), (0, 1), (0, 2), (1, 0), (1, 1), (1, 2), (2, 0), (2, 1), (2, 2)]

/-- The offsets inside the box whose mask character is `'*'`. -/
def liveOffsets (shape : List (List Char)) : List (Nat × Nat) :=
  boxOffsets.filter (fun o => (shape.getD o.1 []).getD o.2 '.' == '*')

/-- `Ship::is_overlapping`: scan the whole 3×3 box (not just the mask's live
cells) for any `LIVE` cell. On an empty grid the source returns `false`;
here `getPos` yields `SPACE` defaults, giving the same answer. -/
def Ship.isOverlapping (s : Ship) (ps : List (List Position)) (start : Coordinate) :
    Bool :=
  boxOffsets.any (fun o =>
    (getPos ps (start.1 + o.1, start.2 + o.2)).status == Status.LIVE)

/-- The cells `Ship::draw` writes for a given anchor. -/
def drawCells (s : Ship) (start : Coordinate) : List Coordinate :=
  (liveOffsets s.shape).map (fun o => (start.1 + o.1, start.2 + o.2))

/-- `Ship::draw`: mark every live-mask cell `LIVE`/owned; returns whether
anything was drawn (true whenever the mask has a live cell and the grid is
non-empty, exactly the source's `ship_drawn`). -/
def Ship.draw (s : Ship) (ps : List (List Position)) (start : Coordinate) :
    List (List Position) × Bool :=
  if ps ≠ [] ∧ ps.getD 0 [] ≠ [] then
    ((drawCells s start).foldl (fun acc c => setPosLive acc c s.id) ps,
      !(drawCells s start).isEmpty)
  else (ps, false)

/-- `get_random_coordinate`: a raw draw reduced to
`0..(ROWS-threshold) × 0..(COLUMNS-threshold)` (the range of `gen_range`). -/
def getRandomCoordinate (d : Nat × Nat) (threshold : Nat) : Coordinate :=
  (d.1 % (ROWS - threshold), d.2 % (COLUMNS - threshold))

/-- One placement attempt consumes an anchor draw and a rotation draw
(`Ship::new` redraws the rotation after every overlap rejection). -/
abbrev PlaceDraw := (Nat × Nat) × Nat

/-- The retry loop of `Board::new(true)` for a single ship: draw an anchor
(and rotation), reject while overlapping, draw on acceptance. Runs out of
draws ⇒ `none` (the source loops forever on an infinite stream). -/
def placeShip (t : ShipType) (id : Nat) (ps : List (List Position)) :
    List PlaceDraw → Option (List (List Position) × Ship × List PlaceDraw)
  | [] => none
  | (ad, rd) :: rest =>
      let ship : Ship :=
        { id := id, rotation := ROTATIONS.getD (rd % 4) 0, alive := true,
          ship_type := t }
      let start := getRandomCoordinate ad SHIP_SIZE
      if ship.isOverlapping ps start then placeShip t id ps rest
      else if (ship.draw ps start).2 then some ((ship.draw ps start).1, ship, rest)
      else placeShip t id (ship.draw ps start).1 rest

/-- `ShipType::get_initial_ships`. -/
def getInitialShips : List ShipType := [ShipType.X, ShipType.V, ShipType.H, ShipType.I]

/-- The empty `ROWS×COLUMNS` grid built at the start of `Board::new`. -/
def emptyPositions : List (List Position) :=
  (List.range ROWS).map (fun r => (List.range COLUMNS).map (fun c => Position.new (r, c)))

/-- The placement fold of `Board::new(true)` over the archetype order, with
fresh ids `id, id+1, …` standing for fresh uuids. -/
def placeAllShips : List ShipType → Nat → List (List Position) → List PlaceDraw →
    Option (List (List Position) × List Ship)
  | [], _, ps, _ => some (ps, [])
  | t :: ts, id, ps, draws =>
      match placeShip t id ps draws with
      | none => none
      | some (ps', ship, rest) =>
          match placeAllShips ts (id + 1) ps' rest with
          | none => none
          | some (ps'', ships) => some (ps'', ship :: ships)

/-- `Board::new(false)`: empty grid, empty ship roster. -/
def emptyBoard : Board := { positions := emptyPositions, ships := [] }

/-- `Board::new(true)` on an explicit draw stream. -/
def boardNewHome (draws : List PlaceDraw) : Option Board :=
  (placeAllShips getInitialShips 0 emptyPositions draws).map
    (fun r => { positions := r.1, ships := r.2 })

/-! ### Players and the Game orchestration (`Player`, `Game`, `App`) -/

/-- `Player`: `boards.1` is the home board (`player_board`), `boards.2` the
tracking board (`opponent_board`, always `Board::new(false)`). -/
structure Player where
  is_bot : Bool
  boards : Board × Board
deriving DecidableEq, Repr

/-- `Player::new` given the home board produced by placement. -/
def Player.new (hb : Board) : Player :=
  { is_bot := false, boards := (hb, emptyBoard) }

/-- `Game` from `game.rs`; the two players are `players.1` (human, index 0)
and `players.2` (bot, index 1). -/
structure Game where
  players : Player × Player
  winner : Option Nat
  turn : Nat
  rule : Rule
  difficulty : Difficulty
deriving DecidableEq, Repr

/-- `Game::new` on explicit placement-draw streams for the two home boards. -/
def Game.new (rule : Rule) (difficulty : Difficulty) (d0 d1 : List PlaceDraw) :
    Option Game :=
  match boardNewHome d0, boardNewHome d1 with
  | some hb0, some hb1 =>
      some
        { players := (Player.new hb0, { Player.new hb1 with is_bot := true }),
          winner := none, turn := 0, rule := rule, difficulty := difficulty }
  | _, _ => none

/-- `self.players[i]` (indices are only ever 0 and 1). -/
def playerOf (g : Game) (i : Nat) : Player :=
  if i = 0 then g.players.1 else g.players.2

/-- Replace `self.players[i]`. -/
def updatePlayer (g : Game) (i : Nat) (f : Player → Player) : Game :=
  if i = 0 then { g with players := (f g.players.1, g.players.2) }
  else { g with players := (g.players.1, f g.players.2) }

/-- `Game::player` (always index 0). -/
def Game.player (g : Game) : Player := g.players.1

/-- `Game::is_user_turn`. -/
def Game.isUserTurn (g : Game) : Bool := g.turn == 0

/-- `Game::is_won`. -/
def Game.isWon (g : Game) : Bool := g.winner.isSome

/-- `Game::fire`: resolve the volley on the defender's home board, record the
response on the firer's tracking board, flip the turn, and either return the
composed message or — when the defender's last ship fell — set the winner and
return the terminal message. -/
def Game.fire (g : Game) (shots : List Coordinate) (bot : Bool) : String × Game :=
  let player_index := g.turn
  let opponent_index := 1 - player_index
  let tf := takeFire (playerOf g opponent_index).boards.1 shots
  let response := tf.1.1
  let lost := tf.2
  let g1 := updatePlayer g opponent_index (fun p => { p with boards := (tf.1.2, p.boards.2) })
  let us := updateStatus (playerOf g1 player_index).boards.2 response bot
  let g2 := updatePlayer g1 player_index (fun p => { p with boards := (p.boards.1, us.2) })
  let g3 := { g2 with turn := opponent_index }
  if lost then
    (if bot then "You lost 🙁" else "You won 🙌",
      { g3 with winner := some player_index })
  else (us.1, g3)

/-- `Game::is_valid_rule`. -/
def Game.isValidRule (g : Game) (existing_shots : Nat) : Bool :=
  match g.rule with
  | Rule.Default => decide (existing_shots < 1)
  | Rule.SuperCharge =>
      decide (existing_shots < (shipsAlive g.player.boards.1).length)
  | Rule.Desperation =>
      decide (existing_shots ≤
        g.player.boards.2.ships.length - (shipsAlive g.player.boards.2).length)

/-- The `number_of_shots` computation of `Game::generate_firing_coordinates`
(evaluated on the boards of `players[turn]`). -/
def numberOfShots (g : Game) : Nat :=
  match g.rule with
  | Rule.Default => 1
  | Rule.SuperCharge => (shipsAlive (playerOf g g.turn).boards.1).length
  | Rule.Desperation =>
      (playerOf g g.turn).boards.2.ships.length -
        (shipsAlive (playerOf g g.turn).boards.2).length

/-- `Game::generate_firing_coordinates` on an explicit draw stream: draw
`number_of_shots` coordinates (whole grid under Easy, `(0,0)` otherwise) into
a duplicate-collapsing set. -/
def generateFiringCoordinates (g : Game) (draws : Nat → Nat × Nat) :
    List Coordinate :=
  (List.range (numberOfShots g)).foldl
    (fun shots k =>
      let rc :=
        if g.difficulty = Difficulty.Easy then getRandomCoordinate (draws k) 0
        else (0, 0)
      if rc ∈ shots then shots else shots ++ [rc]) []

/-- `Game::bot_fire`. -/
def Game.botFire (g : Game) (draws : Nat → Nat × Nat) : String × Game :=
  g.fire (generateFiringCoordinates g draws) true

/-- The slice of `App` (from `app.rs`) that `on_fire` touches. -/
structure App where
  game : Game
  selected_coordinates : List Coordinate
  message : String

/-- `App::on_fire`: an empty selection or a foreign turn yields only an
informational message; otherwise fire the selection and clear it. The result
message is appended to the previous one. -/
def App.onFire (a : App) : App :=
  let r : String × App :=
    if a.selected_coordinates.isEmpty then
      ("Select opponent coordinates to hit", a)
    else if ¬a.game.isWon ∧ a.game.isUserTurn then
      let f := a.game.fire a.selected_coordinates false
      (f.1, { a with game := f.2, selected_coordinates := [] })
    else ("Not your turn", a)
  { r.2 with
    message := a.message ++ (if a.message.isEmpty then "" else "\n") ++ r.1 }

/-! ### Derived notions used by the claims -/

/-- The quota-validity formulas of `Game::is_valid_rule`, but evaluated from
the firer's perspective (`players[turn]`'s boards), as the bot-quota claim
words it. `Game::is_valid_rule` itself always reads `players[0]`. -/
def specValidFromFirer (g : Game) (n : Nat) : Bool :=
  match g.rule with
  | Rule.Default => decide (n < 1)
  | Rule.SuperCharge =>
      decide (n < (shipsAlive (playerOf g g.turn).boards.1).length)
  | Rule.Desperation =>
      decide (n ≤ (playerOf g g.turn).boards.2.ships.length -
        (shipsAlive (playerOf g g.turn).boards.2).length)

/-- The Desperation cap named by the spec: total ships minus alive ships on
player 0's tracking board. -/
def desperationCap (g : Game) : Nat :=
  g.player.boards.2.ships.length - (shipsAlive g.player.boards.2).length

/-- Number of cells of the grid carrying ship id `id` (the quantity checked
by the source's `test_board_new` via `flat_map` + `filter`). -/
def countShipCells (ps : List (List Position)) (id : Nat) : Nat :=
  (ps.flatten.filter (fun p => p.ship_id == some id)).length

/-- Canonical live-cell count per archetype (X=5, V=5, H=7, I=3). -/
def footprint : ShipType → Nat
  | .X => 5
  | .V => 5
  | .H => 7
  | .I => 3

/-- Number of response entries with a given status. -/
def countStatus (resp : List (Coordinate × Status)) (st : Status) : Nat :=
  resp.countP (fun e => e.2 == st)

/-- The grid has its configured `ROWS × COLUMNS` dimensions. -/
def GoodGrid (ps : List (List Position)) : Prop :=
  ps.length = ROWS ∧ ∀ i < ROWS, (ps.getD i []).length = COLUMNS

/-- Every cell that carries a ship id is `LIVE` (placement writes status and
owner together; firing is not involved here). -/
def LiveId (ps : List (List Position)) : Prop :=
  ∀ p ∈ ps.flatten, p.ship_id.isSome → p.status = Status.LIVE

/-- All ship ids on the grid are below the fresh-id counter. -/
def IdsBelow (ps : List (List Position)) (n : Nat) : Prop :=
  ∀ p ∈ ps.flatten, ∀ j, p.ship_id = some j → j < n

/-- Games reachable through the public construction and firing API
(`Game::new`, `Game::fire`; `bot_fire` is `fire` on generated shots). -/
inductive Reachable : Game → Prop where
  | new : ∀ rule diff d0 d1 g, Game.new rule diff d0 d1 = some g → Reachable g
  | fire : ∀ g shots bot, Reachable g → Reachable (Game.fire g shots bot).2

/-! ### Concrete boards and games used as counterexamples and witnesses -/

/-- A board holding one two-cell ship, both cells still `LIVE` (a board
state reached from a home board once all but two cells of a ship are hit;
used to exhibit in-volley interference). -/
def exBoardC1 : Board :=
  { positions :=
      [[{ status := Status.LIVE, coordinate := (0, 0), ship_id := some 0 },
        { status := Status.LIVE, coordinate := (0, 1), ship_id := some 0 }]],
    ships := [{ id := 0, rotation := 90, alive := true, ship_type := ShipType.I }] }

/-- A board whose cells `(0,0)` and `(0,1)` are already resolved as `HIT`
and `KILL` respectively. -/
def exBoardC5 : Board :=
  { positions :=
      [[{ status := Status.HIT, coordinate := (0, 0), ship_id := some 0 },
        { status := Status.KILL, coordinate := (0, 1), ship_id := some 0 }]],
    ships := [{ id := 0, rotation := 90, alive := true, ship_type := ShipType.I }] }

/-- A draw stream on which every ship is accepted at its first attempt:
anchors `(0,0)`, `(0,3)`, `(3,0)`, `(3,3)` with rotation index 0 (i.e. 90°,
the identity shape). -/
def exDraws : List PlaceDraw :=
  [((0, 0), 0), ((0, 3), 0), ((3, 0), 0), ((3, 3), 0)]

/-- The home board produced by `Board::new(true)` on `exDraws`. -/
def exHome : Board := (boardNewHome exDraws).getD emptyBoard

/-- A fallback game (never reached; only the default of `getD`). -/
def dummyGame : Game :=
  { players := (Player.new emptyBoard, Player.new emptyBoard),
    winner := none, turn := 0, rule := Rule.Default, difficulty := Difficulty.Easy }

/-- The game `Game::new(Desperation, Easy)` builds when placement draws are
`exDraws` for both players. -/
def exGameD : Game :=
  (Game.new Rule.Desperation Difficulty.Easy exDraws exDraws).getD dummyGame

/-- The game `Game::new(Default, Easy)` builds on the same draws. -/
def exGameDef : Game :=
  (Game.new Rule.Default Difficulty.Easy exDraws exDraws).getD dummyGame

/-- An app state over `exGameDef` with nothing selected. -/
def exApp : App :=
  { game := exGameDef, selected_coordinates := [], message := "" }

/-- A 1×1 board whose single cell is the last `LIVE` cell of its only
ship. -/
def exBoardC8 : Board :=
  { positions := [[{ status := Status.LIVE, coordinate := (0, 0), ship_id := some 0 }]],
    ships := [{ id := 0, rotation := 90, alive := true, ship_type := ShipType.I }] }

/-- The only ship of `exBoardC8`. -/
def exShipC8 : Ship :=
  { id := 0, rotation := 90, alive := true, ship_type := ShipType.I }

/-! ## Generic lemmas about grid reads and writes -/

theorem getD_set_ne {α : Type} (l : List α) (i j : Nat) (a d : α) (h : i ≠ j) :
    (l.set i a).getD j d = l.getD j d := by
  simp [List.getElem?_set_ne h]

theorem getD_set_self {α : Type} (l : List α) (i : Nat) (a d : α)
    (h : i < l.length) : (l.set i a).getD i d = a := by
  simp [List.getElem?_set_self h]

theorem getPos_writePos_ne (ps : List (List Position)) (s c : Coordinate)
    (q : Position) (h : c ≠ s) : getPos (writePos ps s q) c = getPos ps c := by
  unfold writePos getPos
  by_cases h1 : s.1 = c.1
  · have h2 : s.2 ≠ c.2 := by
      intro h2
      exact h (Prod.ext h1.symm h2.symm)
    by_cases hlen : s.1 < ps.length
    · rw [h1] at hlen
      rw [h1, getD_set_self _ _ _ _ hlen, ← h1]
      exact getD_set_ne _ _ _ _ _ h2
    · have hL : ps.length ≤ s.1 := Nat.le_of_not_lt hlen
      have e1 : (ps.set s.1 ((ps.getD s.1 []).set s.2 q)).getD c.1 [] = [] := by
        rw [← h1, List.getD_eq_getElem?_getD,
          List.getElem?_eq_none (by simpa using hL)]
        rfl
      have e2 : ps.getD c.1 [] = [] := by
        rw [← h1, List.getD_eq_getElem?_getD, List.getElem?_eq_none hL]
        rfl
      rw [e1, e2]
  · rw [getD_set_ne ps s.1 c.1 _ [] h1]

theorem getPos_writePos_self (ps : List (List Position)) (s : Coordinate)
    (q : Position) (h1 : s.1 < ps.length)
    (h2 : s.2 < (ps.getD s.1 []).length) : getPos (writePos ps s q) s = q := by
  unfold writePos getPos
  rw [getD_set_self _ _ _ _ h1, getD_set_self _ _ _ _ h2]

theorem length_writePos (ps : List (List Position)) (s : Coordinate)
    (q : Position) : (writePos ps s q).length = ps.length :=
  List.length_set ps s.1 _

theorem getD_length_writePos (ps : List (List Position)) (s : Coordinate)
    (q : Position) (i : Nat) :
    ((writePos ps s q).getD i []).length = (ps.getD i []).length := by
  unfold writePos
  by_cases h : s.1 = i
  · subst h
    by_cases hlen : s.1 < ps.length
    · rw [getD_set_self _ _ _ _ hlen]
      simp
    · have hL : ps.length ≤ s.1 := Nat.le_of_not_lt hlen
      rw [List.getD_eq_getElem?_getD, List.getElem?_eq_none (by simpa using hL),
        List.getD_eq_getElem?_getD, List.getElem?_eq_none hL]
  · rw [getD_set_ne _ _ _ _ _ h]

theorem countP_set {α : Type} (p : α → Bool) (l : List α) (i : Nat) (a d : α)
    (h : i < l.length) :
    (l.set i a).countP p + (if p (l.getD i d) then 1 else 0) =
      l.countP p + (if p a then 1 else 0) := by
  induction l generalizing i with
  | nil => simp at h
  | cons x xs ih =>
    cases i with
    | zero =>
      simp only [List.set_cons_zero, List.countP_cons, List.getD_cons_zero]
      omega
    | succ n =>
      have h' : n < xs.length := by simpa using h
      have := ih n h'
      simp only [List.set_cons_succ, List.countP_cons, List.getD_cons_succ]
      omega

theorem map_set_comm {α β : Type} (f : α → β) (l : List α) (i : Nat) (a : α) :
    (l.set i a).map f = (l.map f).set i (f a) := by
  induction l generalizing i with
  | nil => rfl
  | cons x xs ih => cases i <;> simp [ih]

theorem sum_set (l : List Nat) (i : Nat) (a : Nat) (h : i < l.length) :
    (l.set i a).sum + l.getD i 0 = l.sum + a := by
  induction l generalizing i with
  | nil => simp at h
  | cons x xs ih =>
    cases i with
    | zero => simp; omega
    | succ n =>
      have h' : n < xs.length := by simpa using h
      have := ih n h'
      simp only [List.set_cons_succ, List.sum_cons, List.getD_cons_succ]
      omega

theorem getD_map_countP {α : Type} (p : α → Bool) (l : List (List α)) (i : Nat) :
    (l.map (List.countP p)).getD i 0 = (l.getD i []).countP p := by
  simp only [List.getD_eq_getElem?_getD, List.getElem?_map]
  cases l[i]? <;> simp

theorem countP_flatten_writePos (p : Position → Bool) (ps : List (List Position))
    (s : Coordinate) (q : Position) (h1 : s.1 < ps.length)
    (h2 : s.2 < (ps.getD s.1 []).length) :
    (writePos ps s q).flatten.countP p + (if p (getPos ps s) then 1 else 0) =
      ps.flatten.countP p + (if p q then 1 else 0) := by
  unfold writePos getPos
  rw [List.countP_flatten, List.countP_flatten, map_set_comm]
  have hs := sum_set (ps.map (List.countP p)) s.1
    (((ps.getD s.1 []).set s.2 q).countP p) (by simpa using h1)
  have hm := getD_map_countP p ps s.1
  have hr := countP_set p (ps.getD s.1 []) s.2 q defaultPosition h2
  omega

/-! ## Behaviour of `update_status` (counters, ships, messages) -/

theorem updateStatusGo_counts (resp : List (Coordinate × Status)) :
    ∀ (b : Board) (kc hc mc : Nat),
      (updateStatusGo b kc hc mc resp).2 =
        (kc + countStatus resp Status.KILL, hc + countStatus resp Status.HIT,
          mc + countStatus resp Status.MISS) := by
  induction resp with
  | nil => intro b kc hc mc; simp [updateStatusGo, countStatus]
  | cons e rest ih =>
    intro b kc hc mc
    obtain ⟨shot, st⟩ := e
    cases st <;>
      simp only [updateStatusGo, ih, countStatus, List.countP_cons,
        Prod.mk.injEq] <;>
      simp <;> omega

theorem updateStatusGo_ships (resp : List (Coordinate × Status)) :
    ∀ (b : Board) (kc hc mc : Nat),
      (updateStatusGo b kc hc mc resp).1.ships = b.ships := by
  induction resp with
  | nil => intro b kc hc mc; rfl
  | cons e rest ih =>
    intro b kc hc mc
    obtain ⟨shot, st⟩ := e
    cases st <;> simp only [updateStatusGo] <;> rw [ih] <;> split <;> rfl

theorem updateStatus_message (b : Board) (resp : List (Coordinate × Status))
    (bot : Bool) :
    (updateStatus b resp bot).1 =
      composeMessage bot (countStatus resp Status.KILL)
        (countStatus resp Status.HIT) (countStatus resp Status.MISS) := by
  simp only [updateStatus]
  rw [updateStatusGo_counts]
  simp

/-- C10. Message golden cases: on any tracking board, a response tallying
{1 Kill, 0 Hit, 1 Miss} with isBot=false produces exactly
"You have sunk 1 ship. You missed 1.", and a response tallying
{0 Kill, 2 Hit, 0 Miss} with isBot=true produces exactly
"Computer have 2 hit.". -/
theorem update_status_golden_messages
    (b1 b2 : Board) (r1 r2 : List (Coordinate × Status))
    (hk1 : countStatus r1 Status.KILL = 1) (hh1 : countStatus r1 Status.HIT = 0)
    (hm1 : countStatus r1 Status.MISS = 1)
    (hk2 : countStatus r2 Status.KILL = 0) (hh2 : countStatus r2 Status.HIT = 2)
    (hm2 : countStatus r2 Status.MISS = 0) :
    (updateStatus b1 r1 false).1 = "You have sunk 1 ship. You missed 1." ∧
    (updateStatus b2 r2 true).1 = "Computer have 2 hit." := by
  rw [updateStatus_message, updateStatus_message, hk1, hh1, hm1, hk2, hh2, hm2]
  constructor <;> rfl

/-- Witness for C10 at the concrete responses of the source's
`test_board_update_status`. -/
theorem update_status_golden_messages_witness :
    (updateStatus emptyBoard [((1, 1), Status.MISS), ((0, 2), Status.KILL)]
        false).1 = "You have sunk 1 ship. You missed 1." ∧
    (updateStatus emptyBoard [((3, 3), Status.HIT), ((0, 2), Status.HIT)]
        true).1 = "Computer have 2 hit." := by
  exact (update_status_golden_messages emptyBoard emptyBoard
    [((1, 1), Status.MISS), ((0, 2), Status.KILL)]
    [((3, 3), Status.HIT), ((0, 2), Status.HIT)]
    (by decide) (by decide) (by decide) (by decide) (by decide) (by decide))

/-! ## Re-firing an already-resolved cell (C5) -/

/-- C5 counterexample: the claim records the already-resolved outcome in the
response, but the code records `MISS` for an already `HIT` (or `KILL`)
cell. -/
theorem refire_resolved_response_counterexample :
    (exBoardC5.getPosition (0, 0)).status = Status.HIT ∧
    (exBoardC5.getPosition (0, 1)).status = Status.KILL ∧
    ¬((takeFire exBoardC5 [(0, 0)]).1.1.lookup (0, 0) = some Status.HIT) ∧
    ¬((takeFire exBoardC5 [(0, 1)]).1.1.lookup (0, 1) = some Status.KILL) := by
  decide

/-- C5 as amended: a volley consisting of an already-resolved (`HIT` or
`KILL`) coordinate leaves the board — stored statuses and every ship's alive
flag — completely unchanged, and its response entry is `MISS`. -/
theorem refire_resolved_idempotent (b : Board) (c : Coordinate)
    (h : (b.getPosition c).status = Status.HIT ∨
      (b.getPosition c).status = Status.KILL) :
    takeFire b [c] = (([(c, Status.MISS)], b), (shipsAlive b).isEmpty) := by
  have hne : ¬(b.getPosition c).status = Status.LIVE := by
    rcases h with h | h <;> simp [h]
  have hg : ¬((b.getPosition c).status ≠ Status.HIT ∧
      (b.getPosition c).status ≠ Status.KILL) := by
    rcases h with h | h <;> simp [h]
  simp [takeFire, takeFireGo, fireOne, resolveShot, hne, hg]

/-- Witness for C5 (amended) at `exBoardC5`, coordinate `(0,0)`. -/
theorem refire_resolved_idempotent_witness :
    ((exBoardC5.getPosition (0, 0)).status = Status.HIT ∨
      (exBoardC5.getPosition (0, 0)).status = Status.KILL) ∧
    takeFire exBoardC5 [(0, 0)] =
      ((([((0, 0), Status.MISS)]), exBoardC5), (shipsAlive exBoardC5).isEmpty) :=
  ⟨Or.inl rfl, refire_resolved_idempotent exBoardC5 (0, 0) (Or.inl rfl)⟩

/-! ## Status monotonicity (C7) -/

theorem fireOne_frozen (b : Board) (s c : Coordinate)
    (h : (b.getPosition c).status = Status.HIT ∨
      (b.getPosition c).status = Status.KILL) :
    ((fireOne b s).2.getPosition c).status = (b.getPosition c).status := by
  by_cases hc : c = s
  · subst hc
    have hg : ¬(¬(getPos b.positions c).status = Status.HIT ∧
        ¬(getPos b.positions c).status = Status.KILL) := by
      rcases h with h | h <;> simp only [Board.getPosition] at h <;> simp [h]
    simp only [fireOne, Board.getPosition]
    rw [if_neg hg]
  · simp only [fireOne, Board.getPosition]
    split
    · rw [setPosStatus, getPos_writePos_ne _ _ _ _ hc]
    · rfl

theorem takeFireGo_frozen (shots : List Coordinate) :
    ∀ (b : Board) (c : Coordinate),
      ((b.getPosition c).status = Status.HIT ∨
        (b.getPosition c).status = Status.KILL) →
      (((takeFireGo b shots).2).getPosition c).status =
        (b.getPosition c).status := by
  induction shots with
  | nil => intro b c _; rfl
  | cons s rest ih =>
    intro b c h
    have h1 := fireOne_frozen b s c h
    have h2 : ((fireOne b s).2.getPosition c).status = Status.HIT ∨
        ((fireOne b s).2.getPosition c).status = Status.KILL := by
      rw [h1]; exact h
    calc (((takeFireGo b (s :: rest)).2).getPosition c).status
        = (((takeFireGo (fireOne b s).2 rest).2).getPosition c).status := rfl
      _ = ((fireOne b s).2.getPosition c).status := ih (fireOne b s).2 c h2
      _ = (b.getPosition c).status := h1

theorem updateStatusGo_frozen (resp : List (Coordinate × Status)) :
    ∀ (b : Board) (kc hc mc : Nat) (c : Coordinate),
      ((b.getPosition c).status = Status.HIT ∨
        (b.getPosition c).status = Status.KILL) →
      (((updateStatusGo b kc hc mc resp).1).getPosition c).status =
        (b.getPosition c).status := by
  induction resp with
  | nil => intro b kc hc mc c _; rfl
  | cons e rest ih =>
    intro b kc hc mc c h
    obtain ⟨shot, st⟩ := e
    have hstep : ∀ b' : Board,
        b' = (if (b.getPosition shot).status ≠ Status.HIT ∧
            (b.getPosition shot).status ≠ Status.KILL then
          { b with positions := setPosStatus b.positions shot st } else b) →
        (b'.getPosition c).status = (b.getPosition c).status := by
      intro b' hb'
      by_cases hc : c = shot
      · subst hc
        have hg : ¬((b.getPosition c).status ≠ Status.HIT ∧
            (b.getPosition c).status ≠ Status.KILL) := by
          rcases h with h | h <;> simp [h]
        rw [hb', if_neg hg]
      · subst hb'
        split
        · exact congrArg Position.status
            (getPos_writePos_ne b.positions shot c _ hc)
        · rfl
    set b' := if (b.getPosition shot).status ≠ Status.HIT ∧
        (b.getPosition shot).status ≠ Status.KILL then
      { b with positions := setPosStatus b.positions shot st } else b with hb'
    have hkeep := hstep b' hb'
    have h2 : (b'.getPosition c).status = Status.HIT ∨
        (b'.getPosition c).status = Status.KILL := by rw [hkeep]; exact h
    have hrec : (updateStatusGo b kc hc mc ((shot, st) :: rest)).1 =
        (match st with
          | Status.MISS => updateStatusGo b' kc hc (mc + 1) rest
          | Status.HIT => updateStatusGo b' kc (hc + 1) mc rest
          | Status.KILL => updateStatusGo b' (kc + 1) hc mc rest
          | _ => updateStatusGo b' kc hc mc rest).1 := by
      simp only [updateStatusGo, hb', setPosStatus]
    rw [hrec]
    cases st <;> simp only [] <;> rw [ih b' _ _ _ c h2, hkeep]

/-- C7. Status monotonicity: once a cell of a board stores `HIT` or `KILL`,
neither a later `take_fire` volley nor a later `update_status` application
changes that cell's stored status. -/
theorem status_monotone (b : Board) (c : Coordinate)
    (h : (b.getPosition c).status = Status.HIT ∨
      (b.getPosition c).status = Status.KILL) :
    (∀ shots, (((takeFire b shots).1.2).getPosition c).status =
      (b.getPosition c).status) ∧
    (∀ resp bot, (((updateStatus b resp bot).2).getPosition c).status =
      (b.getPosition c).status) := by
  constructor
  · intro shots
    exact takeFireGo_frozen shots b c h
  · intro resp bot
    exact updateStatusGo_frozen resp b 0 0 0 c h

/-- Witness for C7 at the concrete board `exBoardC5`. -/
theorem status_monotone_witness :
    ((exBoardC5.getPosition (0, 0)).status = Status.HIT ∨
      (exBoardC5.getPosition (0, 0)).status = Status.KILL) ∧
    (((takeFire exBoardC5 [(0, 0), (0, 1)]).1.2).getPosition (0, 0)).status =
      (exBoardC5.getPosition (0, 0)).status ∧
    (((updateStatus exBoardC5 [((0, 0), Status.MISS)] false).2).getPosition
      (0, 0)).status = (exBoardC5.getPosition (0, 0)).status :=
  ⟨Or.inl rfl,
    (status_monotone exBoardC5 (0, 0) (Or.inl rfl)).1 [(0, 0), (0, 1)],
    (status_monotone exBoardC5 (0, 0) (Or.inl rfl)).2 [((0, 0), Status.MISS)] false⟩

/-! ## Volley resolution order (C1) -/

/-- C1 counterexample: inside one `take_fire` volley on `exBoardC1` (a ship
with two remaining `LIVE` cells, both fired), the second shot observes the
first shot's commit: its recorded outcome is `KILL`, while resolving that
coordinate alone against the pre-volley board yields `HIT`. The volley is
therefore not resolved against a single pre-volley snapshot. -/
theorem volley_snapshot_counterexample :
    (takeFire exBoardC1 [(0, 0), (0, 1)]).1.1.lookup (0, 1) =
      some Status.KILL ∧
    (fireOne exBoardC1 (0, 1)).1 = Status.HIT ∧
    Status.KILL ≠ Status.HIT := by
  decide

/-- C1 as amended: `take_fire` resolves the volley sequentially in the fixed
ascending `BTreeSet` iteration order; the recorded outcome of each
coordinate equals resolving that coordinate alone against the board state
obtained after committing all earlier coordinates of the volley (so later
shots do observe earlier shots' status commits and alive-flag changes). -/
theorem volley_sequential_resolution (b : Board) (pre post : List Coordinate)
    (c : Coordinate) (h : c ∉ pre) :
    ((takeFire b (pre ++ c :: post)).1.1).lookup c =
      some (fireOne (takeFireGo b pre).2 c).1 := by
  induction pre generalizing b with
  | nil =>
    simp [takeFire, takeFireGo]
  | cons p pre' ih =>
    have hcp : c ≠ p := fun he => h (he ▸ List.mem_cons_self p pre')
    have h' : c ∉ pre' := fun hm => h (List.mem_cons_of_mem p hm)
    have hb : (c == p) = false := by
      simp [hcp]
    calc ((takeFire b ((p :: pre') ++ c :: post)).1.1).lookup c
        = ((p, (fireOne b p).1) ::
            (takeFireGo (fireOne b p).2 (pre' ++ c :: post)).1).lookup c := rfl
      _ = ((takeFireGo (fireOne b p).2 (pre' ++ c :: post)).1).lookup c := by
          rw [List.lookup_cons]
          simp [hb]
      _ = some (fireOne (takeFireGo (fireOne b p).2 pre').2 c).1 :=
          ih (fireOne b p).2 h'
      _ = some (fireOne (takeFireGo b (p :: pre')).2 c).1 := rfl

/-- Witness for C1 (amended) on `exBoardC1`: the second shot's outcome is
the single-shot resolution against the board after the first shot. -/
theorem volley_sequential_resolution_witness :
    ((0, 1) : Coordinate) ∉ [((0, 0) : Coordinate)] ∧
    ((takeFire exBoardC1 [(0, 0), (0, 1)]).1.1).lookup (0, 1) =
      some (fireOne (takeFireGo exBoardC1 [(0, 0)]).2 (0, 1)).1 :=
  ⟨by decide,
    volley_sequential_resolution exBoardC1 [(0, 0)] [] (0, 1) (by decide)⟩

/-! ## Desperation quota (C2) and bot quota agreement (C4) -/

/-- C2 counterexample: with rule Desperation the cap (total − alive on
player 0's tracking board) is 0, yet `is_valid_rule(0)` returns true — the
code tests `existing_shots ≤ cap`, not strictly-less; moreover recording a
Kill through `update_status` leaves the tracking roster (hence the cap)
unchanged at 0. -/
theorem desperation_quota_counterexample :
    exGameD.rule = Rule.Desperation ∧
    ¬(exGameD.isValidRule 0 = true ↔ 0 < desperationCap exGameD) ∧
    ((updateStatus exGameD.player.boards.2 [((0, 0), Status.KILL)]
        false).2.ships.length -
      (shipsAlive (updateStatus exGameD.player.boards.2 [((0, 0), Status.KILL)]
        false).2).length) = 0 := by
  decide

/-- C2 as amended: under Desperation, `is_valid_rule(n)` is true iff `n` is
at most (not strictly below) the cap `total − alive` of player 0's tracking
board; and `update_status` never changes a board's ship roster, so the cap
does not grow when kills are recorded. -/
theorem desperation_quota (g : Game) (n : Nat)
    (hr : g.rule = Rule.Desperation) :
    (g.isValidRule n = true ↔ n ≤ desperationCap g) ∧
    (∀ (b : Board) (resp : List (Coordinate × Status)) (bot : Bool),
      ((updateStatus b resp bot).2).ships = b.ships) := by
  constructor
  · simp [Game.isValidRule, hr, desperationCap]
  · intro b resp bot
    exact updateStatusGo_ships resp b 0 0 0

/-- Witness for C2 (amended) at `exGameD`, `n = 0`. -/
theorem desperation_quota_witness :
    (exGameD.isValidRule 0 = true ↔ 0 ≤ desperationCap exGameD) ∧
    ((updateStatus emptyBoard [((0, 0), Status.KILL)] true).2).ships =
      emptyBoard.ships :=
  ⟨(desperation_quota exGameD 0 rfl).1,
    (desperation_quota exGameD 0 rfl).2 emptyBoard [((0, 0), Status.KILL)] true⟩

/-- C4 counterexample: under Desperation the quota formula (evaluated from
the firer's perspective) still admits a shot at 0 existing shots, but
`generate_firing_coordinates` computes `number_of_shots = 0` — the bot fires
one shot fewer than the rule admits, so the two do not agree. -/
theorem bot_quota_counterexample :
    exGameD.rule = Rule.Desperation ∧
    ¬(specValidFromFirer exGameD 0 = true ↔ 0 < numberOfShots exGameD) := by
  decide

/-- C4 as amended: for Default and SuperCharge the bot's `number_of_shots`
is exactly the quota of the `is_valid_rule` formulas evaluated from the
firer's perspective (validity at n existing shots iff n < number_of_shots);
for Desperation the formulas admit `number_of_shots + 1` shots, one more
than the bot generates. -/
theorem bot_quota_vs_rule (g : Game) (n : Nat) :
    (g.rule ≠ Rule.Desperation →
      (specValidFromFirer g n = true ↔ n < numberOfShots g)) ∧
    (g.rule = Rule.Desperation →
      (specValidFromFirer g n = true ↔ n < numberOfShots g + 1)) := by
  constructor
  · intro hne
    cases hr : g.rule
    · simp [specValidFromFirer, numberOfShots, hr]
    · simp [specValidFromFirer, numberOfShots, hr]
    · exact absurd hr hne
  · intro hr
    simp [specValidFromFirer, numberOfShots, hr, Nat.lt_succ_iff]

/-- Witness for C4 (amended) at the concrete Default and Desperation
games. -/
theorem bot_quota_vs_rule_witness :
    (specValidFromFirer exGameDef 0 = true ↔ 0 < numberOfShots exGameDef) ∧
    (specValidFromFirer exGameD 0 = true ↔ 0 < numberOfShots exGameD + 1) :=
  ⟨(bot_quota_vs_rule exGameDef 0).1 (by decide),
    (bot_quota_vs_rule exGameD 0).2 rfl⟩

/-! ## Empty volleys (C6) and the Desperation bot (C3) -/

/-- `Game::fire` on an empty volley: no board changes at all; the turn still
flips, and the winner is set iff the defender already had no alive ship. -/
theorem fire_nil (g : Game) (bot : Bool) :
    Game.fire g [] bot =
      (if (shipsAlive (playerOf g (1 - g.turn)).boards.1).isEmpty then
        ((if bot then "You lost 🙁" else "You won 🙌"),
          { g with turn := 1 - g.turn, winner := some g.turn })
      else (composeMessage bot 0 0 0, { g with turn := 1 - g.turn })) := by
  by_cases ht : g.turn = 0
  · simp only [Game.fire, takeFire, takeFireGo, updateStatus, updateStatusGo,
      updatePlayer, playerOf, ht]
    norm_num
  · have h1 : 1 - g.turn = 0 := by omega
    simp only [Game.fire, takeFire, takeFireGo, updateStatus, updateStatusGo,
      updatePlayer, playerOf, ht, h1]
    norm_num

theorem fire_nil_players (g : Game) (bot : Bool) :
    (Game.fire g [] bot).2.players = g.players := by
  rw [fire_nil]
  split <;> rfl

/-- C6 counterexample: on the freshly constructed (not yet won) game
`exGameDef`, `Game::fire` with an empty shot set flips the turn indicator —
the call is not mutation-free. -/
theorem empty_volley_counterexample :
    exGameDef.winner = none ∧ exGameDef.turn = 0 ∧
    (Game.fire exGameDef [] false).2.turn = 1 := by
  decide

/-- C6 as amended: `App::on_fire` with an empty selection only reports
"Select opponent coordinates to hit" and never calls `Game::fire`, so game
state is untouched at the app level; `Game::fire` itself on an empty volley
— for a defender that still has an alive ship — changes no board cell, no
ship and no winner and returns the 0-hit message, but flips the turn. -/
theorem empty_volley_no_mutation :
    (∀ a : App, a.selected_coordinates = [] →
      (a.onFire).game = a.game ∧ (a.onFire).selected_coordinates = [] ∧
      (a.onFire).message = a.message ++
        (if a.message.isEmpty then "" else "\n") ++
        "Select opponent coordinates to hit") ∧
    (∀ (g : Game) (bot : Bool),
      shipsAlive (playerOf g (1 - g.turn)).boards.1 ≠ [] →
      Game.fire g [] bot =
        (composeMessage bot 0 0 0, { g with turn := 1 - g.turn })) := by
  constructor
  · intro a ha
    simp [App.onFire, ha]
  · intro g bot h
    rw [fire_nil, if_neg (by simpa using h)]

/-- Witness for C6 (amended) at the concrete app state `exApp` and at
`exGameDef`. -/
theorem empty_volley_no_mutation_witness :
    ((App.onFire exApp).game = exApp.game ∧
      (App.onFire exApp).selected_coordinates = [] ∧
      (App.onFire exApp).message = exApp.message ++
        (if exApp.message.isEmpty then "" else "\n") ++
        "Select opponent coordinates to hit") ∧
    Game.fire exGameDef [] false =
      (composeMessage false 0 0 0, { exGameDef with turn := 1 - exGameDef.turn }) :=
  ⟨(empty_volley_no_mutation).1 exApp rfl,
    (empty_volley_no_mutation).2 exGameDef false (by decide)⟩

theorem fire_tracking_ships (g : Game) (shots : List Coordinate) (bot : Bool) :
    (Game.fire g shots bot).2.players.1.boards.2.ships =
      g.players.1.boards.2.ships ∧
    (Game.fire g shots bot).2.players.2.boards.2.ships =
      g.players.2.boards.2.ships := by
  by_cases ht : g.turn = 0
  · simp only [Game.fire, takeFire, updateStatus, updatePlayer, playerOf, ht]
    norm_num
    split <;> exact ⟨updateStatusGo_ships _ _ _ _ _, rfl⟩
  · have h1 : 1 - g.turn = 0 := by omega
    simp only [Game.fire, takeFire, updateStatus, updatePlayer, playerOf, ht, h1]
    norm_num
    split <;> exact ⟨rfl, updateStatusGo_ships _ _ _ _ _⟩

/-- Invariant: in every reachable game both players' tracking boards have an
empty ship roster (`Board::new(false)` registers none and `update_status`
never adds any). -/
theorem reachable_tracking_empty (g : Game) (h : Reachable g) :
    g.players.1.boards.2.ships = [] ∧ g.players.2.boards.2.ships = [] := by
  induction h with
  | new rule diff d0 d1 g hg =>
    unfold Game.new at hg
    cases h0 : boardNewHome d0 with
    | none => rw [h0] at hg; cases hg
    | some hb0 =>
      cases h1 : boardNewHome d1 with
      | none => rw [h0, h1] at hg; cases hg
      | some hb1 =>
        rw [h0, h1] at hg
        cases hg
        exact ⟨rfl, rfl⟩
  | fire g shots bot hr ih =>
    obtain ⟨e1, e2⟩ := fire_tracking_ships g shots bot
    rw [e1, e2]
    exact ih

/-- C3. In every reachable game with rule Desperation, the firer's tracking
roster is empty, so the bot's quota is 0, `generate_firing_coordinates`
returns the empty set, and `bot_fire` changes neither player (in particular
no cell of any board): the bot can never score a hit under Desperation. -/
theorem desperation_bot_harmless (g : Game) (h : Reachable g)
    (hr : g.rule = Rule.Desperation) :
    numberOfShots g = 0 ∧
    (∀ draws, generateFiringCoordinates g draws = []) ∧
    (∀ draws, (g.botFire draws).2.players = g.players) := by
  obtain ⟨ht1, ht2⟩ := reachable_tracking_empty g h
  have hn : numberOfShots g = 0 := by
    simp only [numberOfShots, hr, playerOf]
    split <;> simp [shipsAlive, ht1, ht2]
  have hgen : ∀ draws, generateFiringCoordinates g draws = [] := by
    intro draws
    simp [generateFiringCoordinates, hn]
  refine ⟨hn, hgen, ?_⟩
  intro draws
  unfold Game.botFire
  rw [hgen draws]
  exact fire_nil_players g true

/-- Witness for C3 at the concrete reachable Desperation game `exGameD`. -/
theorem desperation_bot_harmless_witness :
    numberOfShots exGameD = 0 ∧
    generateFiringCoordinates exGameD (fun k => (k, k)) = [] ∧
    (exGameD.botFire (fun k => (k, k))).2.players = exGameD.players := by
  have h := desperation_bot_harmless exGameD
    (Reachable.new Rule.Desperation Difficulty.Easy exDraws exDraws exGameD rfl)
    rfl
  exact ⟨h.1, h.2.1 _, h.2.2 _⟩

/-! ## Kill detection (C8) -/

theorem find?_setShipDead (ships : List Ship) (i : Nat) (s : Ship)
    (h : ships.find? (fun u => u.id == i) = some s) :
    (setShipDead ships i).find? (fun u => u.id == i) =
      some { s with alive := false } := by
  induction ships with
  | nil => simp at h
  | cons t rest ih =>
    by_cases hid : (t.id == i) = true
    · rw [List.find?_cons, hid] at h
      have hd : setShipDead (t :: rest) i = { t with alive := false } :: rest := by
        simp [setShipDead, hid]
      cases h
      rw [hd, List.find?_cons]
      simp [hid]
    · rw [List.find?_cons] at h
      rw [Bool.not_eq_true] at hid
      rw [hid] at h
      have hd : setShipDead (t :: rest) i = t :: setShipDead rest i := by
        simp [setShipDead, hid]
      rw [hd, List.find?_cons, hid]
      exact ih h

theorem setShipDead_filter_alive (ships : List Ship) (i : Nat)
    (hnodup : (ships.map (fun u => u.id)).Nodup) :
    (setShipDead ships i).filter (fun t => t.alive) =
      ships.filter (fun t => t.alive && !(t.id == i)) := by
  induction ships with
  | nil => rfl
  | cons t rest ih =>
    rw [List.map_cons, List.nodup_cons] at hnodup
    obtain ⟨hni, hrest⟩ := hnodup
    by_cases hid : (t.id == i) = true
    · have hiq : t.id = i := by simpa using hid
      have hrid : ∀ x ∈ rest, (decide (x.alive = true) : Bool) = true →
          True := fun _ _ _ => trivial
      have hcong : rest.filter (fun u => u.alive) =
          rest.filter (fun u => u.alive && !(u.id == i)) := by
        apply List.filter_congr
        intro x hx
        have : x.id ≠ i := by
          intro hxi
          exact hni (by
            rw [← hiq] at hxi
            exact hxi ▸ List.mem_map_of_mem (fun u => u.id) hx)
        simp [this]
      simp [setShipDead, hid, hcong]
    · have hd : setShipDead (t :: rest) i = t :: setShipDead rest i := by
        simp [setShipDead, hid]
      rw [hd]
      by_cases ha : t.alive <;>
        simp [List.filter_cons, ha, hid, ih hrest]

theorem find?_id_unique (ships : List Ship) (i : Nat) (s t : Ship)
    (hnodup : (ships.map (fun u => u.id)).Nodup)
    (hfind : ships.find? (fun u => u.id == i) = some s)
    (ht : t ∈ ships) (hid : t.id = i) : t = s := by
  have hs : s ∈ ships := List.mem_of_find?_eq_some hfind
  have hsi : s.id = i := by simpa using List.find?_some hfind
  exact List.inj_on_of_nodup_map hnodup ht hs (by rw [hid, hsi])

/-- C8. Kill detection: firing the last `LIVE` cell of a ship yields
response `Kill` for that coordinate, sets that ship's alive flag to false,
and `take_fire` reports cleared=true iff that ship was the board's last
alive ship. -/
theorem kill_detection (b : Board) (c : Coordinate) (i : Nat) (s : Ship)
    (h1 : (b.getPosition c).status = Status.LIVE)
    (h2 : (b.getPosition c).ship_id = some i)
    (h3 : (alivePosByShip b i).length = 1)
    (h4 : findShip b i = some s)
    (h5 : s.alive = true)
    (h6 : (b.ships.map (fun u => u.id)).Nodup) :
    (takeFire b [c]).1.1 = [(c, Status.KILL)] ∧
    findShip (takeFire b [c]).1.2 i = some { s with alive := false } ∧
    ((takeFire b [c]).2 = true ↔ ∀ t ∈ b.ships, t.alive = true → t = s) := by
  have hfire : fireOne b c =
      (Status.KILL,
        Board.mk (setPosStatus b.positions c Status.KILL)
          (setShipDead b.ships i)) := by
    simp [fireOne, resolveShot, h1, h2, h3, h4]
  have htf : takeFire b [c] =
      (([(c, Status.KILL)],
        Board.mk (setPosStatus b.positions c Status.KILL)
          (setShipDead b.ships i)),
        (shipsAlive (Board.mk (setPosStatus b.positions c Status.KILL)
          (setShipDead b.ships i))).isEmpty) := by
    simp [takeFire, takeFireGo, hfire]
  refine ⟨by rw [htf], ?_, ?_⟩
  · rw [htf]
    exact find?_setShipDead b.ships i s h4
  · rw [htf]
    simp only [shipsAlive]
    rw [setShipDead_filter_alive b.ships i h6]
    rw [List.isEmpty_iff, List.filter_eq_nil_iff]
    constructor
    · intro hall t htm hta
      have := hall t htm
      have hti : t.id = i := by
        by_contra hne
        exact this (by simp [hta, hne])
      exact find?_id_unique b.ships i s t h6 h4 htm hti
    · intro hall t htm hcon
      have hta : t.alive = true := (Bool.and_eq_true_iff.mp hcon).1
      have hts : t = s := hall t htm hta
      have hti : (t.id == i) = true := by
        have hsi : s.id = i := by simpa using List.find?_some h4
        rw [hts, hsi]
        simp
      rw [Bool.and_eq_true] at hcon
      rcases hcon with ⟨_, hni⟩
      rw [hti] at hni
      simp at hni

/-- Witness for C8 at the concrete board `exBoardC8`. -/
theorem kill_detection_witness :
    (takeFire exBoardC8 [(0, 0)]).1.1 = [((0, 0), Status.KILL)] ∧
    findShip (takeFire exBoardC8 [(0, 0)]).1.2 0 =
      some { exShipC8 with alive := false } ∧
    ((takeFire exBoardC8 [(0, 0)]).2 = true ↔
      ∀ t ∈ exBoardC8.ships, t.alive = true → t = exShipC8) :=
  kill_detection exBoardC8 (0, 0) 0 exShipC8 (by decide) (by decide)
    (by decide) (by decide) (by decide) (by decide)

/-! ## Ship placement postcondition (C9): shape and write lemmas -/

theorem liveOffsets_getShape_length (t : ShipType) (r : Nat) :
    (liveOffsets (getShape t r)).length = footprint t := by
  cases t <;> simp only [getShape] <;> split_ifs <;> decide

theorem boxOffsets_bound : ∀ o ∈ boxOffsets, o.1 ≤ 2 ∧ o.2 ≤ 2 := by
  decide

theorem liveOffsets_subset_box (shape : List (List Char)) :
    ∀ o ∈ liveOffsets shape, o ∈ boxOffsets := by
  intro o ho
  exact List.mem_of_mem_filter ho

theorem drawCells_nodup (s : Ship) (start : Coordinate) :
    (drawCells s start).Nodup := by
  unfold drawCells liveOffsets
  refine List.Nodup.map_on ?_ (List.Nodup.filter _ (by decide))
  intro x hx y hy hxy
  have e1 : start.1 + x.1 = start.1 + y.1 := congrArg Prod.fst hxy
  have e2 : start.2 + x.2 = start.2 + y.2 := congrArg Prod.snd hxy
  exact Prod.ext (Nat.add_left_cancel e1) (Nat.add_left_cancel e2)

theorem drawCells_length (s : Ship) (start : Coordinate) :
    (drawCells s start).length = footprint s.ship_type := by
  unfold drawCells Ship.shape
  rw [List.length_map]
  exact liveOffsets_getShape_length s.ship_type s.rotation

theorem drawCells_inbounds (s : Ship) (ad : Nat × Nat)
    (ps : List (List Position)) (hg : GoodGrid ps) :
    ∀ c ∈ drawCells s (getRandomCoordinate ad SHIP_SIZE),
      c.1 < ps.length ∧ c.2 < (ps.getD c.1 []).length := by
  intro c hc
  unfold drawCells at hc
  obtain ⟨o, ho, rfl⟩ := List.mem_map.mp hc
  obtain ⟨ho1, ho2⟩ := boxOffsets_bound o (liveOffsets_subset_box _ o ho)
  have ha1 : ad.1 % (ROWS - SHIP_SIZE) < 7 := Nat.mod_lt _ (by decide)
  have ha2 : ad.2 % (COLUMNS - SHIP_SIZE) < 7 := Nat.mod_lt _ (by decide)
  have hr : (getRandomCoordinate ad SHIP_SIZE).1 + o.1 < ROWS := by
    unfold getRandomCoordinate
    simp only [ROWS, SHIP_SIZE] at *
    omega
  refine ⟨by rw [hg.1]; exact hr, ?_⟩
  rw [hg.2 _ (by rw [← hg.1]; rw [hg.1]; exact hr)]
  unfold getRandomCoordinate
  simp only [COLUMNS, SHIP_SIZE] at *
  omega

theorem getPos_mem_flatten (ps : List (List Position)) (c : Coordinate)
    (h1 : c.1 < ps.length) (h2 : c.2 < (ps.getD c.1 []).length) :
    getPos ps c ∈ ps.flatten := by
  unfold getPos
  rw [List.mem_flatten]
  refine ⟨ps.getD c.1 [], ?_, ?_⟩
  · rw [List.getD_eq_getElem?_getD, List.getElem?_eq_getElem h1]
    exact List.getElem_mem h1
  · rw [List.getD_eq_getElem?_getD (ps.getD c.1 []), List.getElem?_eq_getElem h2]
    exact List.getElem_mem h2

theorem mem_flatten_writePos (ps : List (List Position)) (c : Coordinate)
    (q x : Position) (hx : x ∈ (writePos ps c q).flatten) :
    x = q ∨ x ∈ ps.flatten := by
  unfold writePos at hx
  rw [List.mem_flatten] at hx
  obtain ⟨row', hrow', hxrow⟩ := hx
  rcases List.mem_or_eq_of_mem_set hrow' with hmem | heq
  · right
    exact List.mem_flatten.mpr ⟨row', hmem, hxrow⟩
  · subst heq
    rcases List.mem_or_eq_of_mem_set hxrow with hmem | heq
    · by_cases hc : c.1 < ps.length
      · right
        refine List.mem_flatten.mpr ⟨ps.getD c.1 [], ?_, hmem⟩
        rw [List.getD_eq_getElem?_getD, List.getElem?_eq_getElem hc]
        exact List.getElem_mem hc
      · rw [List.getD_eq_getElem?_getD,
          List.getElem?_eq_none (Nat.le_of_not_lt hc)] at hmem
        cases hmem
    · left
      exact heq

theorem countShipCells_eq_countP (ps : List (List Position)) (id : Nat) :
    countShipCells ps id = ps.flatten.countP (fun p => p.ship_id == some id) :=
  (List.countP_eq_length_filter _ _).symm

theorem countShipCells_writePos (ps : List (List Position)) (c : Coordinate)
    (q : Position) (j : Nat) (h1 : c.1 < ps.length)
    (h2 : c.2 < (ps.getD c.1 []).length) :
    countShipCells (writePos ps c q) j +
        (if ((getPos ps c).ship_id == some j) = true then 1 else 0) =
      countShipCells ps j + (if (q.ship_id == some j) = true then 1 else 0) := by
  rw [countShipCells_eq_countP, countShipCells_eq_countP]
  exact countP_flatten_writePos (fun p => p.ship_id == some j) ps c q h1 h2

theorem setPosLive_count_self (ps : List (List Position)) (c : Coordinate)
    (id : Nat) (h1 : c.1 < ps.length) (h2 : c.2 < (ps.getD c.1 []).length)
    (h0 : (getPos ps c).ship_id = none) :
    countShipCells (setPosLive ps c id) id = countShipCells ps id + 1 := by
  have hw := countShipCells_writePos ps c
    (Position.mk Status.LIVE (getPos ps c).coordinate (some id)) id h1 h2
  rw [h0] at hw
  have e1 : ((none : Option Nat) == some id) = false := rfl
  have e2 : ((Position.mk Status.LIVE (getPos ps c).coordinate
      (some id)).ship_id == some id) = true := by simp
  rw [e1, e2] at hw
  norm_num at hw
  rw [setPosLive]
  omega

theorem setPosLive_count_other (ps : List (List Position)) (c : Coordinate)
    (id j : Nat) (hj : j ≠ id) (h1 : c.1 < ps.length)
    (h2 : c.2 < (ps.getD c.1 []).length)
    (h0 : (getPos ps c).ship_id = none) :
    countShipCells (setPosLive ps c id) j = countShipCells ps j := by
  have hw := countShipCells_writePos ps c
    (Position.mk Status.LIVE (getPos ps c).coordinate (some id)) j h1 h2
  rw [h0] at hw
  have e1 : ((none : Option Nat) == some j) = false := rfl
  have e2 : ((Position.mk Status.LIVE (getPos ps c).coordinate
      (some id)).ship_id == some j) = false := by simp [Ne.symm hj]
  rw [e1, e2] at hw
  norm_num at hw
  rw [setPosLive]
  omega

theorem setPosLive_liveId (ps : List (List Position)) (c : Coordinate)
    (id : Nat) (h : LiveId ps) : LiveId (setPosLive ps c id) := by
  intro p hp _
  rcases mem_flatten_writePos ps c _ p hp with heq | hmem
  · rw [heq]
  · exact h p hmem (by assumption)

theorem setPosLive_idsBelow (ps : List (List Position)) (c : Coordinate)
    (id m : Nat) (h : IdsBelow ps m) (hid : id < m) :
    IdsBelow (setPosLive ps c id) m := by
  intro p hp j hj
  rcases mem_flatten_writePos ps c _ p hp with heq | hmem
  · rw [heq] at hj
    simp at hj
    rw [← hj]
    exact hid
  · exact h p hmem j hj

theorem countShipCells_zero (ps : List (List Position)) (n : Nat)
    (h : IdsBelow ps n) : countShipCells ps n = 0 := by
  unfold countShipCells
  rw [List.length_eq_zero, List.filter_eq_nil_iff]
  intro p hp hpn
  have : p.ship_id = some n := by simpa using hpn
  exact Nat.lt_irrefl n (h p hp n this)

theorem idsBelow_mono (ps : List (List Position)) (n m : Nat)
    (h : IdsBelow ps n) (hnm : n ≤ m) : IdsBelow ps m :=
  fun p hp j hj => Nat.lt_of_lt_of_le (h p hp j hj) hnm

theorem foldl_setPosLive_spec (id : Nat) (cells : List Coordinate) :
    ∀ ps : List (List Position), cells.Nodup →
      (∀ c ∈ cells, c.1 < ps.length ∧ c.2 < (ps.getD c.1 []).length ∧
        (getPos ps c).ship_id = none) →
      countShipCells (cells.foldl (fun acc c => setPosLive acc c id) ps) id =
          countShipCells ps id + cells.length ∧
      (∀ j, j ≠ id →
        countShipCells (cells.foldl (fun acc c => setPosLive acc c id) ps) j =
          countShipCells ps j) ∧
      (cells.foldl (fun acc c => setPosLive acc c id) ps).length = ps.length ∧
      (∀ i, ((cells.foldl (fun acc c => setPosLive acc c id) ps).getD i []).length =
        (ps.getD i []).length) ∧
      (LiveId ps → LiveId (cells.foldl (fun acc c => setPosLive acc c id) ps)) ∧
      (∀ m, IdsBelow ps m → id < m →
        IdsBelow (cells.foldl (fun acc c => setPosLive acc c id) ps) m) := by
  induction cells with
  | nil =>
    intro ps _ _
    refine ⟨by simp, fun j _ => rfl, rfl, fun i => rfl, fun h => h, fun m h _ => h⟩
  | cons c cs ih =>
    intro ps hnd hin
    obtain ⟨h1, h2, h0⟩ := hin c (List.mem_cons_self c cs)
    rw [List.nodup_cons] at hnd
    obtain ⟨hcn, hnd'⟩ := hnd
    have hlen1 : (setPosLive ps c id).length = ps.length := length_writePos _ _ _
    have hrow1 : ∀ i, ((setPosLive ps c id).getD i []).length =
        (ps.getD i []).length := fun i => getD_length_writePos _ _ _ i
    have hget_ne : ∀ c' : Coordinate, c' ≠ c →
        getPos (setPosLive ps c id) c' = getPos ps c' :=
      fun c' h => getPos_writePos_ne _ _ _ _ h
    have hin' : ∀ c' ∈ cs, c'.1 < (setPosLive ps c id).length ∧
        c'.2 < ((setPosLive ps c id).getD c'.1 []).length ∧
        (getPos (setPosLive ps c id) c').ship_id = none := by
      intro c' hc'
      obtain ⟨a1, a2, a0⟩ := hin c' (List.mem_cons_of_mem c hc')
      have hne : c' ≠ c := fun he => hcn (he ▸ hc')
      exact ⟨by rw [hlen1]; exact a1, by rw [hrow1]; exact a2,
        by rw [hget_ne c' hne]; exact a0⟩
    have IH := ih (setPosLive ps c id) hnd' hin'
    have e_self := setPosLive_count_self ps c id h1 h2 h0
    have e_other := fun j hj => setPosLive_count_other ps c id j hj h1 h2 h0
    simp only [List.foldl_cons]
    refine ⟨?_, ?_, ?_, ?_, ?_, ?_⟩
    · rw [IH.1, e_self, List.length_cons]
      omega
    · intro j hj
      rw [IH.2.1 j hj, e_other j hj]
    · rw [IH.2.2.1, hlen1]
    · intro i
      rw [IH.2.2.2.1 i, hrow1 i]
    · intro hl
      exact IH.2.2.2.2.1 (setPosLive_liveId ps c id hl)
    · intro m hm hid
      exact IH.2.2.2.2.2 m (setPosLive_idsBelow ps c id m hm hid) hid

theorem draw_eq_of_goodGrid (s : Ship) (ps : List (List Position))
    (start : Coordinate) (hg : GoodGrid ps) :
    Ship.draw s ps start =
      ((drawCells s start).foldl (fun acc c => setPosLive acc c s.id) ps,
        !(drawCells s start).isEmpty) := by
  have hne1 : ps ≠ [] := by
    intro h
    have := hg.1
    rw [h] at this
    simp [ROWS] at this
  have hne2 : ps.getD 0 [] ≠ [] := by
    intro h
    have := hg.2 0 (by decide)
    rw [h] at this
    simp [COLUMNS] at this
  unfold Ship.draw
  rw [if_pos ⟨hne1, hne2⟩]

theorem draw_false_positions (s : Ship) (ps : List (List Position))
    (start : Coordinate) (h : (Ship.draw s ps start).2 = false) :
    (Ship.draw s ps start).1 = ps := by
  by_cases hgd : ps ≠ [] ∧ ps.getD 0 [] ≠ []
  · unfold Ship.draw at h ⊢
    rw [if_pos hgd] at h ⊢
    have he : (drawCells s start).isEmpty = true := by simpa using h
    rw [List.isEmpty_iff] at he
    rw [he]
    rfl
  · unfold Ship.draw at h ⊢
    rw [if_neg hgd]

theorem placeShip_spec (t : ShipType) (id : Nat) (draws : List PlaceDraw) :
    ∀ (ps ps' : List (List Position)) (ship : Ship) (rest : List PlaceDraw),
      placeShip t id ps draws = some (ps', ship, rest) →
      GoodGrid ps → LiveId ps →
      ship.id = id ∧ ship.ship_type = t ∧ GoodGrid ps' ∧ LiveId ps' ∧
      countShipCells ps' id = countShipCells ps id + footprint t ∧
      (∀ j, j ≠ id → countShipCells ps' j = countShipCells ps j) ∧
      (∀ m, IdsBelow ps m → id < m → IdsBelow ps' m) := by
  induction draws with
  | nil =>
    intro ps ps' ship rest h _ _
    simp [placeShip] at h
  | cons d rest' ih =>
    intro ps ps' ship rest h hg hl
    obtain ⟨ad, rd⟩ := d
    rw [placeShip] at h
    split at h
    · exact ih ps ps' ship rest h hg hl
    · rename_i hov
      rw [draw_eq_of_goodGrid _ ps _ hg] at h
      split at h
      · -- accepted: the ship is drawn onto the board
        simp only [Option.some.injEq, Prod.mk.injEq] at h
        obtain ⟨hps, hship, hrest⟩ := h
        subst hps
        subst hship
        have hovf : ∀ o ∈ boxOffsets,
            ((getPos ps ((getRandomCoordinate ad SHIP_SIZE).1 + o.1,
              (getRandomCoordinate ad SHIP_SIZE).2 + o.2)).status ==
                Status.LIVE) = false := by
          have hb : Ship.isOverlapping
              { id := id, rotation := ROTATIONS.getD (rd % 4) 0, alive := true,
                ship_type := t } ps (getRandomCoordinate ad SHIP_SIZE) = false := by
            revert hov
            cases Ship.isOverlapping
              { id := id, rotation := ROTATIONS.getD (rd % 4) 0, alive := true,
                ship_type := t } ps (getRandomCoordinate ad SHIP_SIZE) <;> simp
          unfold Ship.isOverlapping at hb
          rw [List.any_eq_false] at hb
          intro o ho
          have := hb o ho
          revert this
          cases hx : ((getPos ps ((getRandomCoordinate ad SHIP_SIZE).1 + o.1,
            (getRandomCoordinate ad SHIP_SIZE).2 + o.2)).status ==
              Status.LIVE) <;> simp
        have hbounds := drawCells_inbounds
          { id := id, rotation := ROTATIONS.getD (rd % 4) 0, alive := true,
            ship_type := t } ad ps hg
        have hin : ∀ c ∈ drawCells
            { id := id, rotation := ROTATIONS.getD (rd % 4) 0, alive := true,
              ship_type := t } (getRandomCoordinate ad SHIP_SIZE),
            c.1 < ps.length ∧ c.2 < (ps.getD c.1 []).length ∧
              (getPos ps c).ship_id = none := by
          intro c hc
          obtain ⟨hb1, hb2⟩ := hbounds c hc
          refine ⟨hb1, hb2, ?_⟩
          unfold drawCells at hc
          obtain ⟨o, ho, rfl⟩ := List.mem_map.mp hc
          have hbox : o ∈ boxOffsets := liveOffsets_subset_box _ o ho
          have hst : (getPos ps ((getRandomCoordinate ad SHIP_SIZE).1 + o.1,
              (getRandomCoordinate ad SHIP_SIZE).2 + o.2)).status ≠
                Status.LIVE := by
            have := hovf o hbox
            simpa using this
          cases hx : (getPos ps ((getRandomCoordinate ad SHIP_SIZE).1 + o.1,
              (getRandomCoordinate ad SHIP_SIZE).2 + o.2)).ship_id with
          | none => rfl
          | some j =>
            have hsome : (getPos ps ((getRandomCoordinate ad SHIP_SIZE).1 + o.1,
                (getRandomCoordinate ad SHIP_SIZE).2 + o.2)).ship_id.isSome := by
              rw [hx]
              rfl
            exact absurd (hl _ (getPos_mem_flatten ps _ hb1 hb2) hsome) hst
        have hfold := foldl_setPosLive_spec id (drawCells
          { id := id, rotation := ROTATIONS.getD (rd % 4) 0, alive := true,
            ship_type := t } (getRandomCoordinate ad SHIP_SIZE)) ps
          (drawCells_nodup _ _) hin
        have hlen := drawCells_length
          { id := id, rotation := ROTATIONS.getD (rd % 4) 0, alive := true,
            ship_type := t } (getRandomCoordinate ad SHIP_SIZE)
        refine ⟨rfl, rfl, ⟨?_, ?_⟩, hfold.2.2.2.2.1 hl, ?_, ?_, ?_⟩
        · rw [hfold.2.2.1]
          exact hg.1
        · intro i hi
          rw [hfold.2.2.2.1 i]
          exact hg.2 i hi
        · rw [hfold.1, hlen]
        · intro j hj
          exact hfold.2.1 j hj
        · intro m hm hid
          exact hfold.2.2.2.2.2 m hm hid
      · -- draw reported nothing drawn: the grid is unchanged, keep trying
        rename_i hdrawn
        have hfd : ((drawCells
            { id := id, rotation := ROTATIONS.getD (rd % 4) 0, alive := true,
              ship_type := t } (getRandomCoordinate ad SHIP_SIZE)).foldl
                (fun acc c => setPosLive acc c id) ps) = ps := by
          have he : (drawCells
              { id := id, rotation := ROTATIONS.getD (rd % 4) 0, alive := true,
                ship_type := t } (getRandomCoordinate ad SHIP_SIZE)).isEmpty
                  = true := by
            revert hdrawn
            cases (drawCells
              { id := id, rotation := ROTATIONS.getD (rd % 4) 0, alive := true,
                ship_type := t } (getRandomCoordinate ad SHIP_SIZE)).isEmpty <;>
              simp
          rw [List.isEmpty_iff] at he
          rw [he]
          rfl
        rw [hfd] at h
        exact ih ps ps' ship rest h hg hl

theorem placeAllShips_spec (ts : List ShipType) :
    ∀ (n : Nat) (ps : List (List Position)) (draws : List PlaceDraw)
      (ps' : List (List Position)) (ships : List Ship),
      placeAllShips ts n ps draws = some (ps', ships) →
      GoodGrid ps → LiveId ps → IdsBelow ps n →
      ships.map (fun s => s.ship_type) = ts ∧
      ships.map (fun s => s.id) = List.range' n ts.length ∧
      GoodGrid ps' ∧ LiveId ps' ∧ IdsBelow ps' (n + ts.length) ∧
      (∀ s ∈ ships, countShipCells ps' s.id = footprint s.ship_type) ∧
      (∀ j, j < n → countShipCells ps' j = countShipCells ps j) := by
  induction ts with
  | nil =>
    intro n ps draws ps' ships h hg hl hi
    simp only [placeAllShips, Option.some.injEq, Prod.mk.injEq] at h
    obtain ⟨hps, hships⟩ := h
    subst hps
    subst hships
    exact ⟨rfl, rfl, hg, hl, by simpa using hi, by simp, fun j _ => rfl⟩
  | cons t ts' ih =>
    intro n ps draws ps' ships h hg hl hi
    rw [placeAllShips] at h
    cases h1 : placeShip t n ps draws with
    | none => rw [h1] at h; cases h
    | some r =>
      obtain ⟨ps1, ship1, rest1⟩ := r
      rw [h1] at h
      dsimp only at h
      cases h2 : placeAllShips ts' (n + 1) ps1 rest1 with
      | none => rw [h2] at h; cases h
      | some r2 =>
        obtain ⟨ps2, ships2⟩ := r2
        rw [h2] at h
        simp only [Option.some.injEq, Prod.mk.injEq] at h
        obtain ⟨hps, hships⟩ := h
        subst hps
        subst hships
        obtain ⟨hid1, hty1, hg1, hl1, hcount1, hother1, hbelow1⟩ :=
          placeShip_spec t n draws ps ps1 ship1 rest1 h1 hg hl
        have hi1 : IdsBelow ps1 (n + 1) :=
          hbelow1 (n + 1) (idsBelow_mono ps n (n + 1) hi (Nat.le_succ n))
            (Nat.lt_succ_self n)
        obtain ⟨hty2, hid2, hg2, hl2, hi2, hcount2, hpres2⟩ :=
          ih (n + 1) ps1 rest1 ps2 ships2 h2 hg1 hl1 hi1
        have hzero : countShipCells ps n = 0 := countShipCells_zero ps n hi
        refine ⟨?_, ?_, hg2, hl2, ?_, ?_, ?_⟩
        · rw [List.map_cons, hty1, hty2]
        · rw [List.map_cons, hid1, hid2, List.length_cons, List.range'_succ]
        · rw [List.length_cons]
          have he : n + (ts'.length + 1) = (n + 1) + ts'.length := by omega
          rw [he]
          exact hi2
        · intro s hs
          rcases List.mem_cons.mp hs with heq | hmem
          · subst heq
            rw [hid1, hty1]
            rw [hpres2 n (Nat.lt_succ_self n), hcount1, hzero]
            omega
          · exact hcount2 s hmem
        · intro j hj
          rw [hpres2 j (Nat.lt_succ_of_lt hj),
            hother1 j (Nat.ne_of_lt hj)]

/-- C9. Placement postcondition: whenever `Board::new(true)` terminates, the
board registers exactly one ship per archetype (in the fixed X, V, H, I
order) with pairwise distinct ids, the number of cells carrying each ship's
id equals that archetype's canonical live-cell count (X=5, V=5, H=7, I=3),
and no cell belongs to two different ships. -/
theorem placement_postcondition (draws : List PlaceDraw) (b : Board)
    (h : boardNewHome draws = some b) :
    b.ships.map (fun s => s.ship_type) = getInitialShips ∧
    (b.ships.map (fun s => s.id)).Nodup ∧
    (∀ s ∈ b.ships, countShipCells b.positions s.id = footprint s.ship_type) ∧
    (∀ (c : Coordinate), ∀ s ∈ b.ships, ∀ t ∈ b.ships,
      (getPos b.positions c).ship_id = some s.id →
      (getPos b.positions c).ship_id = some t.id → s = t) := by
  unfold boardNewHome at h
  cases hp : placeAllShips getInitialShips 0 emptyPositions draws with
  | none => rw [hp] at h; cases h
  | some r =>
    obtain ⟨ps', ships⟩ := r
    rw [hp] at h
    simp only [Option.map_some', Option.some.injEq] at h
    subst h
    have hg0 : GoodGrid emptyPositions := by
      unfold GoodGrid
      decide
    have hl0 : LiveId emptyPositions := by
      unfold LiveId
      decide
    have hi0 : IdsBelow emptyPositions 0 := by
      unfold IdsBelow
      decide
    obtain ⟨hty, hid, _, _, _, hcount, _⟩ :=
      placeAllShips_spec getInitialShips 0 emptyPositions draws ps' ships hp
        hg0 hl0 hi0
    have hnodup : (ships.map (fun s => s.id)).Nodup := by
      rw [hid]
      exact List.nodup_range' _ _
    refine ⟨hty, hnodup, hcount, ?_⟩
    intro c s hs t ht hcs hct
    have : s.id = t.id := by
      rw [hcs] at hct
      exact Option.some.inj hct
    exact List.inj_on_of_nodup_map hnodup hs ht this

/-- Witness for C9 at the concrete draw stream `exDraws`, on which every
ship is accepted at its first attempt. -/
theorem placement_postcondition_witness :
    boardNewHome exDraws = some exHome ∧
    exHome.ships.map (fun s => s.ship_type) = getInitialShips ∧
    (exHome.ships.map (fun s => s.id)).Nodup ∧
    (∀ s ∈ exHome.ships, countShipCells exHome.positions s.id =
      footprint s.ship_type) ∧
    (∀ (c : Coordinate), ∀ s ∈ exHome.ships, ∀ t ∈ exHome.ships,
      (getPos exHome.positions c).ship_id = some s.id →
      (getPos exHome.positions c).ship_id = some t.id → s = t) :=
  ⟨rfl, placement_postcondition exDraws exHome rfl⟩

end Battleship
